import Mathlib

/-!
Shallow embedding of the qpid-proton python tutorial runtime
(`src/tutorial/proton_events.py` and `src/tutorial/proton_utils.py`).

Conventions used throughout:
* Python objects that may be `None` become `Option`; an attribute that may be
  absent (probed with `hasattr`) also becomes `Option`, with `none` meaning
  the attribute is not set (in this code base such attributes are only ever
  set to real handler objects, never to `None`).
* Handler contexts are identified by natural numbers; whether a context
  object defines the handler method for the event type under consideration
  is given by an explicit environment function `Nat → Bool`.
* Calls into the external proton engine (`link.flow`, `delivery.settle`,
  hook invocations) are recorded as explicit traces (lists), so theorems can
  speak about which calls were made and in which order.
* Machine floats appear only in `Backoff`; its operations (doubling,
  `min` with 10, comparison with 0) are exact in binary floating point, so
  the rational-number model is faithful to the python float behaviour.
-/

namespace ProtonSpec

/-- Event categories (`Event.CATEGORY_*` plus `ApplicationEvent.CATEGORY_GENERAL`). -/
inductive EvCategory
  | connectionCat
  | sessionCat
  | linkCat
  | deliveryCat
  | generalCat
  deriving DecidableEq

/-! ### ApplicationEvent.__init__ (proton_events.py lines 272-308), for C10

The constructor receives optional `connection`, `session`, `link`, `delivery`
arguments; only their presence (python truthiness) decides which branch runs,
so the arguments are modelled as `Bool`s.  The record tracks which domain
attributes were assigned and the value assigned to the `category` attribute;
`category = none` models the `session` branch, where the source assigns a
local variable `category` instead of `self.category`, so the constructed
event has no `category` attribute. -/

structure AppEvFields where
  hasDelivery : Bool
  hasLink : Bool
  hasSession : Bool
  hasConnection : Bool
  category : Option EvCategory
  deriving DecidableEq

/-- `ApplicationEvent.__init__(type, connection, session, link, delivery)`:
the if/elif chain on the optional scope arguments. -/
def appEventInit (conn ssn lnk dlv : Bool) : AppEvFields :=
  if dlv then ⟨true, true, true, true, some EvCategory.deliveryCat⟩
  else if lnk then ⟨false, true, true, true, some EvCategory.linkCat⟩
  else if ssn then ⟨false, false, true, true, none⟩
  else if conn then ⟨false, false, false, true, some EvCategory.connectionCat⟩
  else ⟨false, false, false, false, some EvCategory.generalCat⟩

/-! ### MessagingContext._get_id (proton_events.py lines 605-608), for C9

`if local: "%s-%s" % (remote, local)` formats the string but has no
`return`, so that branch returns `None`.  Python truthiness on strings
(empty string is falsy) is modelled by `pyTruthyStr`. -/

def pyTruthyStr : Option String → Bool
  | some s => !s.isEmpty
  | none => false

/-- `MessagingContext._get_id(remote, local)`. -/
def getId (remote localAddr : Option String) : Option String :=
  if pyTruthyStr localAddr then none
  else if pyTruthyStr remote then remote
  else some "temp"

/-! ### Backoff (proton_events.py lines 656-669), for C6 -/

/-- `Backoff.next()`: returns the current delay and advances the state. -/
def backoffNext (delay : ℚ) : ℚ × ℚ :=
  (delay, if delay = 0 then 1 / 10 else min 10 (2 * delay))

/-- `Backoff.reset()`: sets the delay back to 0, whatever it was. -/
def backoffReset (_d : ℚ) : ℚ := 0

/-- The delay state after `n` calls to `next()`, starting from state `s`
(`s = 0` is the freshly constructed object). -/
def backoffStateFrom (s : ℚ) : Nat → ℚ
  | 0 => s
  | n + 1 => (backoffNext (backoffStateFrom s n)).2

/-- The value returned by the `(n+1)`-st call to `next()` starting from
state `s`. -/
def backoffOutFrom (s : ℚ) (n : Nat) : ℚ :=
  (backoffNext (backoffStateFrom s n)).1

/-- The sequence the specification promises:
0, 0.1, 0.2, 0.4, 0.8, 1.6, 3.2, 6.4, 10, 10, ... -/
def backoffExpected : Nat → ℚ
  | 0 => 0
  | n + 1 => min 10 (2 ^ n / 10)

/-! ### Url fields and Urls iterator (proton_events.py lines 671-741), for C5 and C8 -/

/-- The attributes stored by `Url.__init__`: scheme, user, password, host
(whichever of the two host groups matched) and the port converted to an
integer. -/
structure UrlFields where
  scheme : Option String
  user : Option String
  password : Option String
  host : String
  port : Option Nat
  deriving DecidableEq

/-- Values a python iterator over addresses can hand back: either a
`(host, port)` tuple (what `Url.next` builds) or a whole `Url` object
(what `Urls.next` actually returns, since it iterates the list of `Url`s). -/
inductive PyIterVal
  | hostPortTup (h : String) (p : Option Nat)
  | urlObj (u : UrlFields)
  deriving DecidableEq

/-- `Url.next()`: builds the `(host, port)` tuple. -/
def urlNext (f : UrlFields) : PyIterVal := PyIterVal.hostPortTup f.host f.port

/-- Is the value a `(host, port)` tuple? -/
def isHostPortTup : PyIterVal → Bool
  | PyIterVal.hostPortTup _ _ => true
  | PyIterVal.urlObj _ => false

/-- `Urls` state: the parsed list and the position of the list iterator
`self.i` (the number of elements already yielded in the current pass). -/
structure UrlsState where
  values : List UrlFields
  idx : Nat
  deriving DecidableEq

/-- `Urls.next()`: `self.i.next()` yields the next *element of the list*
(a `Url` object, not a tuple); on `StopIteration` the iterator is rebuilt
and its first element returned.  `none` models the uncaught `StopIteration`
of an empty list. -/
def urlsNext (s : UrlsState) : Option (PyIterVal × UrlsState) :=
  match s.values[s.idx]? with
  | some u => some (PyIterVal.urlObj u, ⟨s.values, s.idx + 1⟩)
  | none =>
    match s.values[0]? with
    | some u => some (PyIterVal.urlObj u, ⟨s.values, 1⟩)
    | none => none

/-! ### Delivery events and the sender-side handlers, for C2 and C3

One `DELIVERY` event presents the delivery with engine-controlled flags
(`updated`, `settled`) and the remote disposition state; only the hidden
`_been_settled` flag is under the handler's control and persists between
events.  Hook invocations and the `delivery.settle()` engine call are
recorded in a trace. -/

/-- Remote disposition states `Delivery.ACCEPTED/REJECTED/RELEASED/MODIFIED`. -/
inductive Disp
  | accepted
  | rejected
  | released
  | modified
  deriving DecidableEq

/-- What one `DELIVERY` event shows of the delivery. -/
structure DlvObs where
  updated : Bool
  settled : Bool
  remoteState : Option Disp
  deriving DecidableEq

/-- Calls a sender-side delivery handler can make. -/
inductive Hook
  | onAccepted
  | onRejected
  | onReleased
  | onModified
  | onSettled
  | settleCall
  deriving DecidableEq

/-- Number of `delivery.settle()` calls in a trace. -/
def countSettle (l : List Hook) : Nat :=
  l.countP (fun h => h == Hook.settleCall)

/-- The if/elif chain on `dlv.remote_state` in
`OutgoingMessageHandler.on_delivery` (proton_events.py lines 477-484). -/
def dispHooksOut : Option Disp → List Hook
  | some Disp.accepted => [Hook.onAccepted]
  | some Disp.rejected => [Hook.onRejected]
  | some Disp.released => [Hook.onReleased]
  | some Disp.modified => [Hook.onModified]
  | none => []

/-- `OutgoingMessageHandler.on_delivery` (proton_events.py lines 473-489):
guarded by `dlv.updated and not hasattr(dlv, "_been_settled")`; when
`auto_settle()` is true it sets `dlv._been_settled` and calls
`dlv.settle()`.  Returns the trace and the new `_been_settled` flag. -/
def onDeliveryStep (autoSettle : Bool) (o : DlvObs) (beenSettled : Bool) :
    List Hook × Bool :=
  if o.updated && !beenSettled then
    let hs := dispHooksOut o.remoteState ++
      (if o.settled then [Hook.onSettled] else [])
    if autoSettle then (hs ++ [Hook.settleCall], true) else (hs, beenSettled)
  else ([], beenSettled)

/-- A sequence of `DELIVERY` events for the same delivery processed by
`OutgoingMessageHandler.on_delivery`, threading the `_been_settled` flag. -/
def onDeliveryRun (autoSettle : Bool) : List DlvObs → Bool → List Hook × Bool
  | [], b => ([], b)
  | o :: rest, b =>
    let p := onDeliveryStep autoSettle o b
    let q := onDeliveryRun autoSettle rest p.2
    (p.1 ++ q.1, q.2)

/-- `SenderHandler.delivery` (proton_utils.py lines 399-414): every one of
the four `elif` branches on `dlv.remote_state` calls `self.accepted`, and
there is no `_been_settled` guard, so the whole body runs on every updated
event. -/
def senderDeliveryStep (autoSettle : Bool) (o : DlvObs) : List Hook :=
  if o.updated then
    (match o.remoteState with
      | some Disp.accepted => [Hook.onAccepted]
      | some Disp.rejected => [Hook.onAccepted]
      | some Disp.released => [Hook.onAccepted]
      | some Disp.modified => [Hook.onAccepted]
      | none => []) ++
    (if o.settled then [Hook.onSettled] else []) ++
    (if autoSettle then [Hook.settleCall] else [])
  else []

/-- A sequence of `DELIVERY` events processed by `SenderHandler.delivery`
(no state is threaded: the handler keeps none). -/
def senderDeliveryRun (autoSettle : Bool) : List DlvObs → List Hook
  | [] => []
  | o :: rest => senderDeliveryStep autoSettle o ++ senderDeliveryRun autoSettle rest

/-! ### ScopedDispatcher, for C1

Domain objects carry an optional `context` attribute (a handler id).
`hasMethod c` says whether context `c` defines the handler method for the
event type being dispatched (for a `DELIVERY` event: `on_delivery`). -/

/-- A domain object (`delivery`, `link`, `session` or `connection`) with its
optional `context` attribute. -/
structure SObj where
  ctx : Option Nat
  deriving DecidableEq

/-- An event as seen by the scoped dispatcher: the four optional domain
attributes and the category. -/
structure SEvent where
  delivery : Option SObj
  link : Option SObj
  session : Option SObj
  connection : Option SObj
  category : EvCategory
  deriving DecidableEq

/-- The attribute names in `ScopedDispatcher.scopes`. -/
inductive ScopeAttr
  | deliveryA
  | linkA
  | sessionA
  | connectionA
  deriving DecidableEq

/-- The `scopes` table of `ScopedDispatcher` (proton_events.py lines
457-462); `scopes.get(category, [])` defaults to the empty list. -/
def scopesOf : EvCategory → List ScopeAttr
  | EvCategory.connectionCat => [ScopeAttr.connectionA]
  | EvCategory.sessionCat => [ScopeAttr.sessionA, ScopeAttr.connectionA]
  | EvCategory.linkCat =>
    [ScopeAttr.linkA, ScopeAttr.sessionA, ScopeAttr.connectionA]
  | EvCategory.deliveryCat =>
    [ScopeAttr.deliveryA, ScopeAttr.linkA, ScopeAttr.sessionA,
      ScopeAttr.connectionA]
  | EvCategory.generalCat => []

/-- `getattr(event, attr)` for the four scope attribute names. -/
def attrOf (e : SEvent) : ScopeAttr → Option SObj
  | ScopeAttr.deliveryA => e.delivery
  | ScopeAttr.linkA => e.link
  | ScopeAttr.sessionA => e.session
  | ScopeAttr.connectionA => e.connection

/-- `ScopedDispatcher.dispatch` (proton_events.py lines 464-470): collect
the scope objects, keep those with a `context`, keep the contexts defining
the method, and invoke each in order.  The result is the ordered list of
invoked context ids. -/
def scopedDispatch (hasMethod : Nat → Bool) (e : SEvent) : List Nat :=
  let objects := (scopesOf e.category).map (attrOf e)
  let targets := objects.filterMap (fun o => o.bind SObj.ctx)
  targets.filter hasMethod

/-- `ScopedDispatcher.connection_context` (proton_utils.py lines 339-344). -/
def connectionContextOf (e : SEvent) : Option Nat :=
  e.connection.bind SObj.ctx

/-- `ScopedDispatcher.session_context` (proton_utils.py lines 346-351):
the session's own context if present, else fall back to the connection. -/
def sessionContextOf (e : SEvent) : Option Nat :=
  match e.session.bind SObj.ctx with
  | some c => some c
  | none => connectionContextOf e

/-- `ScopedDispatcher.link_context` (proton_utils.py lines 353-358). -/
def linkContextOf (e : SEvent) : Option Nat :=
  match e.link.bind SObj.ctx with
  | some c => some c
  | none => sessionContextOf e

/-- `ScopedDispatcher.delivery_context` (proton_utils.py lines 360-364). -/
def deliveryContextOf (e : SEvent) : Option Nat :=
  match e.delivery.bind SObj.ctx with
  | some c => some c
  | none => linkContextOf e

/-- `ScopedDispatcher.target_context` (proton_utils.py lines 366-371). -/
def targetContextOf (e : SEvent) : Option Nat :=
  match e.category with
  | EvCategory.connectionCat => connectionContextOf e
  | EvCategory.sessionCat => sessionContextOf e
  | EvCategory.linkCat => linkContextOf e
  | EvCategory.deliveryCat => deliveryContextOf e
  | EvCategory.generalCat => none

/-- `ScopedDispatcher.dispatch` (proton_utils.py lines 373-376): a single
target context is resolved and its method invoked if defined (else the
`unhandled` no-op).  Result: ordered list of invoked context ids. -/
def utilsScopedDispatch (hasMethod : Nat → Bool) (e : SEvent) : List Nat :=
  match targetContextOf e with
  | some t => if hasMethod t then [t] else []
  | none => []

/-! ### FlowController (proton_events.py lines 430-453), for C4

`link.flow(delta)` is an external engine call; per the spec's external
interface it grants `delta` additional credits, so the model adds `delta`
to the link's credit and records the call in a trace of deltas. -/

/-- A link as the flow controller sees it. -/
structure LinkState where
  isReceiver : Bool
  credit : Int
  deriving DecidableEq

/-- The event types on which `FlowController` defines handler methods,
plus `otherE` for every other event type (dispatched to the `unhandled`
no-op by `EventDispatcher.dispatch`). -/
inductive FCEventType
  | linkOpenE
  | linkRemoteOpenE
  | linkFlowE
  | deliveryE
  | otherE
  deriving DecidableEq

/-- `FlowController.top_up`: `delta = self.window - link.credit;
link.flow(delta)`. -/
def topUp (window : Int) (l : LinkState) : List Int × LinkState :=
  let delta := window - l.credit
  ([delta], ⟨l.isReceiver, l.credit + delta⟩)

/-- Shared body of the four handler methods: `if event.link.is_receiver:
self.top_up(event.link)` (for `on_delivery` the link is
`event.delivery.link`). -/
def fcHandle (window : Int) (l : LinkState) : List Int × LinkState :=
  if l.isReceiver then topUp window l else ([], l)

/-- `FlowController` dispatching one event whose link is `l`: the trace of
`flow` deltas and the resulting link state. -/
def flowController (window : Int) (t : FCEventType) (l : LinkState) :
    List Int × LinkState :=
  match t with
  | FCEventType.linkOpenE => fcHandle window l
  | FCEventType.linkRemoteOpenE => fcHandle window l
  | FCEventType.linkFlowE => fcHandle window l
  | FCEventType.deliveryE => fcHandle window l
  | FCEventType.otherE => ([], l)

/-! ### Selectable byte pump error paths (proton_events.py lines 124-162), for C7

The model keeps the two done flags; the transport capacity/pending counts
and the outcome of the socket call are inputs.  The outcome enumerations
say which exception path (if any) the `try` block took. -/

/-- The `read_done` / `write_done` flags of a socket adapter. -/
structure SelState where
  readDone : Bool
  writeDone : Bool
  deriving DecidableEq

/-- Outcome of the `recv`/`push` region in `readable()`. -/
inductive RecvOutcome
  | gotData
  | gotEmpty
  | sockErrR
  | protoErrR
  deriving DecidableEq

/-- Outcome of the `pending`/`peek`/`send`/`pop` region in `writable()`. -/
inductive SendOutcome
  | sentOk
  | sockErrW
  | protoErrW
  deriving DecidableEq

/-- `Selectable.readable` (proton_events.py lines 124-146): with capacity
`c > 0`, a `socket.error` from `recv` sets both `read_done` and
`write_done`; a `TransportException` sets only `read_done`; zero bytes with
the connection not closed cleanly sets both. -/
def evReadable (c : Int) (r : RecvOutcome) (closedCleanly : Bool)
    (s : SelState) : SelState :=
  if 0 < c then
    match r with
    | RecvOutcome.gotData => s
    | RecvOutcome.gotEmpty => if closedCleanly then s else ⟨true, true⟩
    | RecvOutcome.protoErrR => ⟨true, s.writeDone⟩
    | RecvOutcome.sockErrR => ⟨true, true⟩
  else if c < 0 then ⟨true, s.writeDone⟩ else s

/-- `Selectable.writable` (proton_events.py lines 147-161): with pending
`p > 0`, a `socket.error` from `send` sets only `write_done` (the read
half is untouched); so does a `TransportException`. -/
def evWritable (p : Int) (r : SendOutcome) (s : SelState) : SelState :=
  if 0 < p then
    match r with
    | SendOutcome.sentOk => s
    | SendOutcome.sockErrW => ⟨s.readDone, true⟩
    | SendOutcome.protoErrW => ⟨s.readDone, true⟩
  else if p < 0 then ⟨s.readDone, true⟩ else s

/-- `Selectable.closed` (proton_events.py lines 90-95): true iff both
halves are done. -/
def closedSel (s : SelState) : Bool := s.writeDone && s.readDone

/-! ### Url parsing and printing (proton_events.py lines 671-715), for C5

The regex
`^(?:([^:/@]+)://)?(?:([^:/@]+)(?:/([^:/@]+))?@)?(?:([^@:/\[]+)|\[([a-f0-9:.]+)\])(?::([0-9]+))?$`
is modelled at the level of its capture groups: a string matches the
grammar exactly when it is `buildUrlString u` for a `UrlParts u` whose
components satisfy the character-class constraints (`grammarOKB`).
`Url.__init__` is then a function of the groups and `Url.__str__` a
function of the stored fields. -/

/-- `[0-9]` (the port character class). -/
def digitB (c : Char) : Bool :=
  (c == '0') || (c == '1') || (c == '2') || (c == '3') || (c == '4') ||
  (c == '5') || (c == '6') || (c == '7') || (c == '8') || (c == '9')

/-- `[^:/@]` (the scheme, user and password character class). -/
def schemeCharB (c : Char) : Bool :=
  !(c == ':') && !(c == '/') && !(c == '@')

/-- `[^@:/\[]` (the plain-host character class). -/
def host4CharB (c : Char) : Bool :=
  !(c == '@') && !(c == ':') && !(c == '/') && !(c == '[')

/-- `[a-f0-9:.]` with `re.I` (the bracketed-host character class). -/
def host6CharB (c : Char) : Bool :=
  (c == 'a') || (c == 'b') || (c == 'c') || (c == 'd') || (c == 'e') ||
  (c == 'f') || (c == 'A') || (c == 'B') || (c == 'C') || (c == 'D') ||
  (c == 'E') || (c == 'F') || digitB c || (c == ':') || (c == '.')

/-- A nonempty segment all of whose characters satisfy `p` (each regex
group uses a `+` quantifier). -/
def okSegB (p : Char → Bool) (s : String) : Bool :=
  !s.data.isEmpty && s.data.all p

/-- An optional group: absent, or a valid segment. -/
def optSegB (p : Char → Bool) : Option String → Bool
  | some s => okSegB p s
  | none => true

/-- The capture groups of a grammar match: optional scheme, user, password,
the host text with a flag saying which host alternative matched, and the
optional port digit string. -/
structure UrlParts where
  scheme : Option String
  user : Option String
  password : Option String
  host : String
  isV6 : Bool
  port : Option String
  deriving DecidableEq

/-- The character-class constraints the regex imposes on the groups (a
password needs an enclosing user group). -/
def grammarOKB (u : UrlParts) : Bool :=
  optSegB schemeCharB u.scheme &&
  optSegB schemeCharB u.user &&
  optSegB schemeCharB u.password &&
  (!u.password.isSome || u.user.isSome) &&
  (if u.isV6 then okSegB host6CharB u.host else okSegB host4CharB u.host) &&
  optSegB digitB u.port

/-- The scheme piece of the grammar template. -/
def buildSchemeSeg (o : Option String) : String :=
  match o with
  | some sc => sc ++ "://"
  | none => ""

/-- The `user[/password]@` piece of the grammar template. -/
def buildUserSeg (us pw : Option String) : String :=
  match us with
  | some u0 =>
    u0 ++ (match pw with
      | some p0 => "/" ++ (p0 ++ "@")
      | none => "@")
  | none => ""

/-- The `(host4|[host6])` piece of the grammar template. -/
def buildHostSeg (isV6 : Bool) (h : String) : String :=
  if isV6 then "[" ++ (h ++ "]") else h

/-- The `[:port]` piece of the grammar template. -/
def buildPortSeg (p : Option String) : String :=
  match p with
  | some p0 => ":" ++ p0
  | none => ""

/-- The matched string determined by the groups, following the grammar
template `[scheme://][user[/password]@](host4|[host6])[:port]`. -/
def buildUrlString (u : UrlParts) : String :=
  buildSchemeSeg u.scheme ++
    (buildUserSeg u.user u.password ++
      (buildHostSeg u.isV6 u.host ++ buildPortSeg u.port))

/-- Numeric value of a digit character (`c.toNat - 48`). -/
def charVal (c : Char) : Nat := c.toNat - 48

/-- `int(p)` on a decimal digit string: the little-endian digit list is the
reversed character list. -/
def decVal (s : String) : Nat :=
  Nat.ofDigits 10 ((s.data.map charVal).reverse)

/-- `Url.__init__` on the capture groups: store scheme, user, password,
`host4 or host6`, and the port converted with `int`. -/
def urlInit (u : UrlParts) : UrlFields :=
  ⟨u.scheme, u.user, u.password, u.host, u.port.map decVal⟩

/-- The character for a digit value below ten. -/
def digitCharOf : Nat → Char
  | 0 => '0'
  | 1 => '1'
  | 2 => '2'
  | 3 => '3'
  | 4 => '4'
  | 5 => '5'
  | 6 => '6'
  | 7 => '7'
  | 8 => '8'
  | 9 => '9'
  | _ => '*'

/-- Little-endian digit characters of `n`, with fuel for termination. -/
def natCharsAux : Nat → Nat → List Char
  | 0, _ => []
  | _ + 1, 0 => []
  | fuel + 1, n + 1 => digitCharOf ((n + 1) % 10) :: natCharsAux fuel ((n + 1) / 10)

/-- `"%s" % n` for a python int: the decimal representation. -/
def natToString (n : Nat) : String :=
  if n = 0 then "0" else String.mk (natCharsAux n n).reverse

/-- `':' in self.host`. -/
def hasColonB (s : String) : Bool := s.data.any (fun c => c == ':')

/-- The scheme piece of `Url.__str__` (`if self.scheme:` is python
truthiness: skipped for `None` and for the empty string). -/
def schemeSegStr (o : Option String) : String :=
  match o with
  | some sc => if sc = "" then "" else sc ++ "://"
  | none => ""

/-- The user/password piece of `Url.__str__`: note that the source appends
`"@"` inside the `if self.password:` block, so a user without a password is
printed with no `"@"` separator. -/
def userSegStr (us pw : Option String) : String :=
  match us with
  | some u0 =>
    if u0 = "" then ""
    else
      u0 ++ (match pw with
        | some p0 => if p0 = "" then "" else "/" ++ (p0 ++ "@")
        | none => "")
  | none => ""

/-- The host piece of `Url.__str__`: brackets exactly when the stored host
contains a colon. -/
def hostSegStr (h : String) : String :=
  if hasColonB h then "[" ++ (h ++ "]") else h

/-- The port piece of `Url.__str__`: `if self.port:` skips both `None` and
the integer 0. -/
def portSegStr (p : Option Nat) : String :=
  match p with
  | some n => if n = 0 then "" else ":" ++ natToString n
  | none => ""

/-- `Url.__str__` (proton_events.py lines 700-715). -/
def urlStr (f : UrlFields) : String :=
  schemeSegStr f.scheme ++
    (userSegStr f.user f.password ++ (hostSegStr f.host ++ portSegStr f.port))

/-- The concrete grammar match refuting the round trip: `"u@h"`
(user `u`, no password, host `h`). -/
def cexParts : UrlParts := ⟨none, some "u", none, "h", false, none⟩

/-- A fully featured grammar match (scheme, user, password, bracketed
IPv6 host, port) used as a concrete round-trip input. -/
def witParts : UrlParts :=
  ⟨some "amqp", some "me", some "pw", "ff01:1", true, some "5672"⟩

/-- Two parsed addresses for exercising the `Urls` iterator. -/
def sampleU1 : UrlFields := ⟨some "amqp", none, none, "h1", some 1⟩

/-- Second parsed address for the `Urls` iterator. -/
def sampleU2 : UrlFields := ⟨some "amqp", none, none, "h2", some 2⟩

/-! ## Theorems -/

/-- C10: the `ApplicationEvent` constructor sets the category to
`CATEGORY_DELIVERY`, `CATEGORY_LINK`, `CATEGORY_CONNECTION` or the general
category according to the finest non-null scope argument, but in the
session-only branch the source assigns a local variable `category` instead
of `self.category`, so that event is constructed *without* a category
attribute (modelled as `none`), contradicting both the `CATEGORY_SESSION`
case and the "in every case the constructed event has a category
attribute" part of the claim. -/
theorem appEvent_session_branch_misses_category :
    (appEventInit false true false false).category = none ∧
    (appEventInit false false false true).category = some EvCategory.deliveryCat ∧
    (appEventInit false false true false).category = some EvCategory.linkCat ∧
    (appEventInit true false false false).category = some EvCategory.connectionCat ∧
    (appEventInit false false false false).category = some EvCategory.generalCat := by
  decide

/-- C9: `MessagingContext._get_id` formats `"%s-%s" % (remote, local)` in
the branch where both addresses are given but never returns it, so the
computed link name is `None` there rather than `"target-source"` (the
other branches behave as the claim says). -/
theorem getId_both_addresses_returns_none :
    getId (some "t") (some "s") = none ∧
    getId (some "t") (some "s") ≠ some "t-s" ∧
    getId none (some "s") = none ∧
    getId (some "t") none = some "t" ∧
    getId none none = some "temp" := by
  decide

/-- C8: `Urls.next()` cycles round-robin through the list and restarts
after exhaustion, but every returned value is the stored `Url` object
itself, never the `(host, port)` tuple the claim (and the caller
`Connector._connect`, which unpacks `host, port = connection.address.next()`)
expects; only `Url.next()` builds that tuple. -/
theorem urlsNext_returns_url_object :
    urlsNext ⟨[sampleU1, sampleU2], 0⟩ =
      some (PyIterVal.urlObj sampleU1, ⟨[sampleU1, sampleU2], 1⟩) ∧
    urlsNext ⟨[sampleU1, sampleU2], 1⟩ =
      some (PyIterVal.urlObj sampleU2, ⟨[sampleU1, sampleU2], 2⟩) ∧
    urlsNext ⟨[sampleU1, sampleU2], 2⟩ =
      some (PyIterVal.urlObj sampleU1, ⟨[sampleU1, sampleU2], 1⟩) ∧
    (urlsNext ⟨[sampleU1, sampleU2], 0⟩).map (fun r => isHostPortTup r.1) =
      some false ∧
    urlNext sampleU1 = PyIterVal.hostPortTup "h1" (some 1) := by
  decide

/-- C3: on an updated sender delivery whose remote state is `REJECTED`,
`SenderHandler.delivery` (proton_utils.py) invokes the *accepted* hook —
all four of its remote-state branches call `self.accepted` — whereas the
claim (and `OutgoingMessageHandler.on_delivery` in proton_events.py)
demands the rejected hook. -/
theorem senderHandler_rejected_invokes_accepted :
    senderDeliveryStep true ⟨true, false, some Disp.rejected⟩ =
      [Hook.onAccepted, Hook.settleCall] ∧
    (onDeliveryStep true ⟨true, false, some Disp.rejected⟩ false).1 =
      [Hook.onRejected, Hook.settleCall] := by
  decide

/-- C2 counterexample: `SenderHandler.delivery` (proton_utils.py) has no
`_been_settled` guard, so two `DELIVERY` events with the updated flag set
make it call `settle()` twice — the auto-settle side effect is not
at-most-once for this cited handler. -/
theorem senderHandler_settles_twice :
    countSettle (senderDeliveryRun true
      [⟨true, false, some Disp.accepted⟩, ⟨true, false, some Disp.accepted⟩]) = 2 := by
  decide

/-- C7 counterexample: a socket error during `send` in
`Selectable.writable` (proton_events.py lines 159-161) marks only
`write_done`; the read half stays untouched and `closed()` remains false,
so the claim's "marks both halves done, after which closed() returns true"
fails on the send side. -/
theorem writable_sock_error_marks_only_write :
    evWritable 4 SendOutcome.sockErrW ⟨false, false⟩ = ⟨false, true⟩ ∧
    closedSel (evWritable 4 SendOutcome.sockErrW ⟨false, false⟩) = false := by
  decide

/-- C1 counterexample: for a `DELIVERY` event whose delivery, link,
session and connection all carry contexts (ids 1, 2, 3, 4) defining the
handler method, the proton_utils `ScopedDispatcher` resolves a single
target context — the delivery's — and invokes only it, not all four. -/
theorem utils_scoped_dispatch_single_context :
    utilsScopedDispatch (fun _ => true)
      ⟨some ⟨some 1⟩, some ⟨some 2⟩, some ⟨some 3⟩, some ⟨some 4⟩,
        EvCategory.deliveryCat⟩ = [1] ∧
    utilsScopedDispatch (fun _ => true)
      ⟨some ⟨some 1⟩, some ⟨some 2⟩, some ⟨some 3⟩, some ⟨some 4⟩,
        EvCategory.deliveryCat⟩ ≠ [1, 2, 3, 4] := by
  decide

/-- C5 counterexample: the grammar string `"u@h"` (user without password)
is printed back as `"uh"`, because `Url.__str__` appends the `"@"`
separator inside the `if self.password:` block; so `str(Url(s)) == s`
fails on this grammar match. -/
theorem url_roundtrip_fails_for_user_without_password :
    grammarOKB cexParts = true ∧
    urlStr (urlInit cexParts) = "uh" ∧
    buildUrlString cexParts = "u@h" ∧
    urlStr (urlInit cexParts) ≠ buildUrlString cexParts := by
  decide

/-- C1 (amended): for a `DELIVERY` event whose delivery, link, session and
connection each carry a context defining the handler method, the
proton_events `ScopedDispatcher` invokes all four contexts' methods, in
the order delivery, link, session, connection (the proton_utils variant
invokes only the finest context carrying a `context` attribute). -/
theorem scoped_dispatch_delivery_order (hm : Nat → Bool) (cd cl cs cc : Nat)
    (h1 : hm cd = true) (h2 : hm cl = true) (h3 : hm cs = true)
    (h4 : hm cc = true) :
    scopedDispatch hm
      ⟨some ⟨some cd⟩, some ⟨some cl⟩, some ⟨some cs⟩, some ⟨some cc⟩,
        EvCategory.deliveryCat⟩ = [cd, cl, cs, cc] := by
  simp [scopedDispatch, scopesOf, attrOf, List.filterMap_cons,
    List.filter_cons, h1, h2, h3, h4]

/-- Witness for the scoped dispatch ordering theorem at contexts 1-4 with
every method defined. -/
theorem scoped_dispatch_delivery_order_witness :
    scopedDispatch (fun _ => true)
      ⟨some ⟨some 1⟩, some ⟨some 2⟩, some ⟨some 3⟩, some ⟨some 4⟩,
        EvCategory.deliveryCat⟩ = [1, 2, 3, 4] :=
  scoped_dispatch_delivery_order (fun _ => true) 1 2 3 4 rfl rfl rfl rfl

/-- Unfolding of `onDeliveryRun` on a cons. -/
theorem onDeliveryRun_cons (a : Bool) (o : DlvObs) (rest : List DlvObs)
    (b : Bool) :
    onDeliveryRun a (o :: rest) b =
      ((onDeliveryStep a o b).1 ++
          (onDeliveryRun a rest (onDeliveryStep a o b).2).1,
        (onDeliveryRun a rest (onDeliveryStep a o b).2).2) := rfl

/-- Once the `_been_settled` flag is set, `OutgoingMessageHandler.on_delivery`
does nothing for the rest of the event sequence. -/
theorem onDeliveryRun_flag_set (a : Bool) (obs : List DlvObs) :
    onDeliveryRun a obs true = ([], true) := by
  induction obs with
  | nil => rfl
  | cons o rest ih =>
    rw [onDeliveryRun_cons]
    have hstep : onDeliveryStep a o true = ([], true) := by
      simp [onDeliveryStep]
    rw [hstep, ih]
    rfl

/-- The disposition-hook part of the trace contains no `settle()` call. -/
theorem countSettle_dispHooksOut (r : Option Disp) :
    countSettle (dispHooksOut r) = 0 := by
  cases r with
  | none => rfl
  | some d => cases d <;> rfl

/-- C2 (amended): `OutgoingMessageHandler.on_delivery` (proton_events.py)
with `auto_settle()` true calls `settle()` on a given outgoing delivery at
most once across any sequence of `DELIVERY` events for that delivery,
thanks to the `_been_settled` guard; the proton_utils `SenderHandler`
lacks the guard and settles on every updated event. -/
theorem outgoing_autosettle_at_most_once (obs : List DlvObs) :
    countSettle (onDeliveryRun true obs false).1 ≤ 1 := by
  induction obs with
  | nil => simp [onDeliveryRun, countSettle]
  | cons o rest ih =>
    rw [onDeliveryRun_cons]
    by_cases hu : o.updated = true
    · have hstep : onDeliveryStep true o false =
          ((dispHooksOut o.remoteState ++
              (if o.settled then [Hook.onSettled] else [])) ++
            [Hook.settleCall], true) := by
        simp [onDeliveryStep, hu]
      have hdh := countSettle_dispHooksOut o.remoteState
      have hsettled :
          countSettle (if o.settled = true then [Hook.onSettled] else []) = 0 := by
        by_cases hs : o.settled = true <;> simp [hs, countSettle]
      have hone : countSettle [Hook.settleCall] = 1 := rfl
      rw [hstep, onDeliveryRun_flag_set]
      simp only [countSettle, List.countP_append, List.append_nil]
        at hdh hsettled hone ⊢
      omega
    · have hstep : onDeliveryStep true o false = ([], false) := by
        simp [onDeliveryStep, hu]
      rw [hstep]
      simpa using ih

/-- C4: on each of the four triggering event types, the `FlowController`
grants a receiver link exactly `window − credit` credits in a single
`flow()` call, leaving the credit equal to the window; a sender link never
receives a `flow()` call on any event type. -/
theorem flow_controller_topup (w : Int) (t : FCEventType) (l : LinkState)
    (ht : t ≠ FCEventType.otherE) :
    (l.isReceiver = true →
      (flowController w t l).1 = [w - l.credit] ∧
      ((flowController w t l).2).credit = w) ∧
    (l.isReceiver = false →
      ∀ t2, flowController w t2 l = ([], l)) := by
  constructor
  · intro hr
    have hcred : l.credit + (w - l.credit) = w := by omega
    have hgen : fcHandle w l = ([w - l.credit], ⟨l.isReceiver, w⟩) := by
      simp [fcHandle, topUp, hr, hcred]
    have hfc : flowController w t l = fcHandle w l := by
      cases t with
      | otherE => exact absurd rfl ht
      | linkOpenE => rfl
      | linkRemoteOpenE => rfl
      | linkFlowE => rfl
      | deliveryE => rfl
    rw [hfc, hgen]
    exact ⟨rfl, rfl⟩
  · intro hs t2
    cases t2 <;> simp [flowController, fcHandle, hs]

/-- Witness: window 10, a receiver with credit 3 on a `LINK_FLOW` event is
granted 7 credits and ends with credit 10. -/
theorem flow_controller_topup_witness :
    (flowController 10 FCEventType.linkFlowE ⟨true, 3⟩).1 = [10 - 3] ∧
    ((flowController 10 FCEventType.linkFlowE ⟨true, 3⟩).2).credit = 10 :=
  (flow_controller_topup 10 FCEventType.linkFlowE ⟨true, 3⟩
    (by decide)).1 rfl

/-- C7 (amended): in `Selectable` (proton_events.py), a socket error
during `recv` in `readable()` marks both halves done, after which
`closed()` returns true (so the reactor's sweep removes the adapter); a
socket error during `send` in `writable()` marks only the write half done
and leaves the read half unchanged. -/
theorem socket_error_done_flags (c p : Int) (cc : Bool) (s : SelState)
    (hc : 0 < c) (hp : 0 < p) :
    evReadable c RecvOutcome.sockErrR cc s = ⟨true, true⟩ ∧
    closedSel (evReadable c RecvOutcome.sockErrR cc s) = true ∧
    evWritable p SendOutcome.sockErrW s = ⟨s.readDone, true⟩ := by
  refine ⟨?_, ?_, ?_⟩ <;> simp [evReadable, evWritable, closedSel, hc, hp]

/-- Witness for the socket-error flag theorem at capacity 1, pending 1,
fresh flags. -/
theorem socket_error_done_flags_witness :
    evReadable 1 RecvOutcome.sockErrR false ⟨false, false⟩ = ⟨true, true⟩ ∧
    closedSel (evReadable 1 RecvOutcome.sockErrR false ⟨false, false⟩) = true ∧
    evWritable 1 SendOutcome.sockErrW ⟨false, false⟩ = ⟨false, true⟩ :=
  socket_error_done_flags 1 1 false ⟨false, false⟩ (by decide) (by decide)

/-- The value returned by `next()` is the pre-call state. -/
theorem backoffOutFrom_eq_state (s : ℚ) (n : Nat) :
    backoffOutFrom s n = backoffStateFrom s n := rfl

/-- The expected delay values are nonnegative and positive from index 1 on. -/
theorem backoffExpected_pos (m : Nat) : 0 < backoffExpected (m + 1) := by
  rw [backoffExpected]
  have h1 : (0 : ℚ) < 10 := by norm_num
  have h2 : (0 : ℚ) < 2 ^ m / 10 := by positivity
  exact lt_min h1 h2

/-- From a fresh `Backoff`, the delay state after `n` calls is exactly the
`n`-th element of the promised sequence. -/
theorem backoff_state_eq (n : Nat) : backoffStateFrom 0 n = backoffExpected n := by
  induction n with
  | zero => rfl
  | succ n ih =>
    show (backoffNext (backoffStateFrom 0 n)).2 = backoffExpected (n + 1)
    rw [ih, backoffNext]
    cases n with
    | zero =>
      norm_num [backoffExpected, min_def]
    | succ m =>
      rw [if_neg (ne_of_gt (backoffExpected_pos m))]
      show min 10 (2 * backoffExpected (m + 1)) = backoffExpected (m + 2)
      rw [backoffExpected, backoffExpected]
      rcases le_total ((2 : ℚ) ^ m / 10) 10 with h | h
      · rw [min_eq_right h]
        congr 1
        rw [pow_succ]
        ring
      · rw [min_eq_left h]
        have h2 : (10 : ℚ) ≤ 2 ^ (m + 1) / 10 := by
          have he : (2 : ℚ) ^ (m + 1) / 10 = 2 * (2 ^ m / 10) := by
            rw [pow_succ]; ring
          rw [he]
          linarith
        rw [min_eq_left h2]
        norm_num [min_def]

/-- C6: from a fresh `Backoff`, consecutive `next()` calls return exactly
0, 0.1, 0.2, 0.4, 0.8, 1.6, 3.2, 6.4 and then 10 forever; `reset()` from
any state returns the iterator to the start, so the subsequent `next()`
returns 0 and the sequence restarts. -/
theorem backoff_sequence :
    (∀ n, 8 ≤ n → backoffOutFrom 0 n = 10) ∧
    (∀ d n, backoffOutFrom (backoffReset d) n = backoffExpected n) ∧
    (∀ n, backoffOutFrom 0 n = backoffExpected n) ∧
    backoffOutFrom 0 0 = 0 ∧
    backoffOutFrom 0 1 = 0.1 ∧
    backoffOutFrom 0 2 = 0.2 ∧
    backoffOutFrom 0 3 = 0.4 ∧
    backoffOutFrom 0 4 = 0.8 ∧
    backoffOutFrom 0 5 = 1.6 ∧
    backoffOutFrom 0 6 = 3.2 ∧
    backoffOutFrom 0 7 = 6.4 := by
  have hout : ∀ n, backoffOutFrom 0 n = backoffExpected n := by
    intro n
    rw [backoffOutFrom_eq_state, backoff_state_eq]
  refine ⟨?_, ?_, hout, ?_, ?_, ?_, ?_, ?_, ?_, ?_, ?_⟩
  · intro n hn
    cases n with
    | zero => omega
    | succ m =>
      rw [hout, backoffExpected]
      have h7 : (2 : ℚ) ^ 7 ≤ 2 ^ m := by
        apply pow_le_pow_right₀ (by norm_num)
        omega
      have h100 : (100 : ℚ) ≤ 2 ^ m := le_trans (by norm_num) h7
      have h10 : (10 : ℚ) ≤ 2 ^ m / 10 := by linarith
      rw [min_eq_left h10]
  · intro d n
    show backoffOutFrom 0 n = backoffExpected n
    exact hout n
  all_goals rw [hout]
  all_goals norm_num [backoffExpected, min_def]

/-- Witness: the ninth `next()` call on a fresh `Backoff` returns 10. -/
theorem backoff_sequence_witness : backoffOutFrom 0 9 = 10 :=
  backoff_sequence.1 9 (by norm_num)

/-- A digit character is one of the ten digits. -/
theorem digitB_cases {c : Char} (h : digitB c = true) :
    c = '0' ∨ c = '1' ∨ c = '2' ∨ c = '3' ∨ c = '4' ∨
    c = '5' ∨ c = '6' ∨ c = '7' ∨ c = '8' ∨ c = '9' := by
  simp only [digitB, Bool.or_eq_true, beq_iff_eq] at h
  tauto

/-- Digit characters have value below ten. -/
theorem charVal_lt_ten {c : Char} (h : digitB c = true) : charVal c < 10 := by
  rcases digitB_cases h with h | h | h | h | h | h | h | h | h | h <;>
    subst h <;> decide

/-- `digitCharOf` inverts `charVal` on digit characters. -/
theorem digitCharOf_charVal {c : Char} (h : digitB c = true) :
    digitCharOf (charVal c) = c := by
  rcases digitB_cases h with h | h | h | h | h | h | h | h | h | h <;>
    subst h <;> decide

/-- A digit character other than `'0'` has nonzero value. -/
theorem charVal_ne_zero {c : Char} (h : digitB c = true) (h0 : c ≠ '0') :
    charVal c ≠ 0 := by
  rcases digitB_cases h with h | h | h | h | h | h | h | h | h | h <;>
    subst h <;> first
    | exact absurd rfl h0
    | decide

/-- With enough fuel, `natCharsAux` produces the little-endian decimal
digit characters of `n`. -/
theorem natCharsAux_eq_digits :
    ∀ fuel n : Nat, n ≤ fuel →
      natCharsAux fuel n = (Nat.digits 10 n).map digitCharOf := by
  intro fuel
  induction fuel with
  | zero =>
    intro n hn
    have h0 : n = 0 := Nat.le_zero.mp hn
    subst h0
    simp [natCharsAux]
  | succ f ih =>
    intro n hn
    cases n with
    | zero => simp [natCharsAux]
    | succ m =>
      rw [natCharsAux]
      rw [Nat.digits_def' (by norm_num : 1 < 10) (Nat.succ_pos m)]
      rw [List.map_cons]
      congr 1
      exact ih ((m + 1) / 10) (by omega)

/-- Decimal round trip: printing `int(s)` recovers a digit string with no
leading zero, and its value is nonzero. -/
theorem natToString_decVal (s : String) (hall : okSegB digitB s = true)
    (hz : s.data.head? ≠ some '0') :
    decVal s ≠ 0 ∧ natToString (decVal s) = s := by
  have hsplit : s.data ≠ [] ∧ ∀ c ∈ s.data, digitB c = true := by
    have := hall
    simp only [okSegB, Bool.and_eq_true, Bool.not_eq_true',
      List.isEmpty_eq_false_iff_exists_mem, List.all_eq_true] at this
    obtain ⟨⟨x, hx⟩, h2⟩ := this
    exact ⟨fun hnil => by simp [hnil] at hx, h2⟩
  obtain ⟨hne, hdig⟩ := hsplit
  set L : List Nat := (s.data.map charVal).reverse with hL
  have hlt : ∀ l ∈ L, l < 10 := by
    intro l hl
    rw [hL, List.mem_reverse, List.mem_map] at hl
    obtain ⟨c, hc, rfl⟩ := hl
    exact charVal_lt_ten (hdig c hc)
  have hLne : L ≠ [] := by
    rw [hL]
    simp only [ne_eq, List.reverse_eq_nil_iff, List.map_eq_nil_iff]
    exact hne
  have hlast : ∀ hh : L ≠ [], L.getLast hh ≠ 0 := by
    intro hh
    cases hsd : s.data with
    | nil => exact absurd hsd hne
    | cons c0 rest =>
      have h1 : L.getLast? = (s.data.map charVal).head? := by
        rw [hL]
        exact List.getLast?_reverse _
      rw [hsd] at h1
      simp only [List.map_cons, List.head?_cons] at h1
      have h2 : L.getLast? = some (L.getLast hh) := List.getLast?_eq_getLast _ hh
      have h3 : L.getLast hh = charVal c0 :=
        Option.some.inj (h2.symm.trans h1)
      have hc0 : digitB c0 = true := hdig c0 (by rw [hsd]; exact List.mem_cons_self _ _)
      have hc0z : c0 ≠ '0' := by
        intro h0
        rw [hsd, h0] at hz
        exact hz rfl
      rw [h3]
      exact charVal_ne_zero hc0 hc0z
  have hdg : Nat.digits 10 (Nat.ofDigits 10 L) = L :=
    Nat.digits_ofDigits 10 (by norm_num) L hlt hlast
  have hval : decVal s = Nat.ofDigits 10 L := by rw [decVal, hL]
  have hne0 : decVal s ≠ 0 := by
    rw [hval]
    intro h0
    rw [h0] at hdg
    exact hLne (hdg.symm.trans (Nat.digits_zero 10))
  refine ⟨hne0, ?_⟩
  rw [natToString, if_neg hne0]
  rw [natCharsAux_eq_digits (decVal s) (decVal s) le_rfl]
  rw [hval, hdg, hL]
  rw [List.map_reverse, List.reverse_reverse, List.map_map]
  have hid : s.data.map (digitCharOf ∘ charVal) = s.data := by
    have hcong : s.data.map (digitCharOf ∘ charVal) = s.data.map id :=
      List.map_congr_left (fun c hc => digitCharOf_charVal (hdig c hc))
    rw [hcong, List.map_id]
  rw [hid]

/-- A nonempty valid segment is not the empty string. -/
theorem okSegB_ne_empty {p : Char → Bool} {s : String}
    (h : okSegB p s = true) : s ≠ "" := by
  intro h0
  subst h0
  simp [okSegB] at h

/-- The scheme piece prints back exactly as matched. -/
theorem schemeSeg_eq {o : Option String} (h : optSegB schemeCharB o = true) :
    schemeSegStr o = buildSchemeSeg o := by
  cases o with
  | none => rfl
  | some sc =>
    rw [schemeSegStr, buildSchemeSeg, if_neg (okSegB_ne_empty h)]

/-- With a password present alongside the user, the user piece prints back
exactly as matched. -/
theorem userSeg_eq {us pw : Option String}
    (hu : optSegB schemeCharB us = true) (hp : optSegB schemeCharB pw = true)
    (himp : us.isSome = true → pw.isSome = true) :
    userSegStr us pw = buildUserSeg us pw := by
  cases us with
  | none => rfl
  | some u0 =>
    cases pw with
    | none => exact absurd (himp rfl) (by simp)
    | some p0 =>
      rw [userSegStr, buildUserSeg,
        if_neg (okSegB_ne_empty hu), if_neg (okSegB_ne_empty hp)]

/-- A plain (non-bracketed) host contains no colon, so it prints back
without brackets. -/
theorem hasColonB_false_of_host4 {h : String}
    (hok : okSegB host4CharB h = true) : hasColonB h = false := by
  rw [hasColonB, List.any_eq_false]
  intro c hc
  have hall : ∀ c ∈ h.data, host4CharB c = true := by
    simp only [okSegB, Bool.and_eq_true, List.all_eq_true] at hok
    exact hok.2
  have h4 := hall c hc
  intro hceq
  rw [beq_iff_eq] at hceq
  subst hceq
  simp [host4CharB] at h4

/-- The host piece prints back exactly as matched, given that a bracketed
host contains a colon. -/
theorem hostSeg_eq {v6 : Bool} {h : String}
    (hok : (if v6 then okSegB host6CharB h else okSegB host4CharB h) = true)
    (h6 : v6 = true → hasColonB h = true) :
    hostSegStr h = buildHostSeg v6 h := by
  cases v6 with
  | true => rw [hostSegStr, buildHostSeg, h6 rfl]
  | false => rw [hostSegStr, buildHostSeg, hasColonB_false_of_host4 hok]

/-- The port piece prints back exactly as matched, given no leading zero. -/
theorem portSeg_eq {pt : Option String} (hd : optSegB digitB pt = true)
    (hz : ∀ p, pt = some p → p.data.head? ≠ some '0') :
    portSegStr (pt.map decVal) = buildPortSeg pt := by
  cases pt with
  | none => rfl
  | some p =>
    obtain ⟨hne0, hstr⟩ := natToString_decVal p hd (hz p rfl)
    rw [Option.map_some', portSegStr, buildPortSeg, if_neg hne0, hstr]

/-- C5 (amended): for every string matching the URL grammar in which a
user component is accompanied by a password, a bracketed host contains a
colon, and the port (if any) is written with no leading zero,
`str(Url(s)) == s`.  (The excluded cases genuinely fail: a user with no
password loses its `"@"`, `str` cannot re-bracket a colon-free host, and
`int` normalises `"0"` and leading-zero ports.) -/
theorem url_roundtrip_amended (u : UrlParts)
    (hg : grammarOKB u = true)
    (hup : u.user.isSome = true → u.password.isSome = true)
    (h6 : u.isV6 = true → hasColonB u.host = true)
    (hz : ∀ p, u.port = some p → p.data.head? ≠ some '0') :
    urlStr (urlInit u) = buildUrlString u := by
  obtain ⟨sc, us, pw, h, v6, pt⟩ := u
  simp only [grammarOKB, Bool.and_eq_true] at hg
  obtain ⟨⟨⟨⟨⟨hsc, husr⟩, hpw⟩, _hpu⟩, hhost⟩, hport⟩ := hg
  show schemeSegStr sc ++
      (userSegStr us pw ++ (hostSegStr h ++ portSegStr (pt.map decVal))) =
    buildSchemeSeg sc ++
      (buildUserSeg us pw ++ (buildHostSeg v6 h ++ buildPortSeg pt))
  rw [schemeSeg_eq hsc, userSeg_eq husr hpw hup, hostSeg_eq hhost h6,
    portSeg_eq hport hz]

/-- Witness for the amended round trip at
`"amqp://me/pw@[ff01:1]:5672"`. -/
theorem url_roundtrip_amended_witness :
    grammarOKB witParts = true ∧
    urlStr (urlInit witParts) = buildUrlString witParts :=
  ⟨by decide,
    url_roundtrip_amended witParts (by decide) (fun _ => rfl) (fun _ => rfl)
      (fun p hp => by
        injection hp with hp
        subst hp
        decide)⟩

end ProtonSpec
